import Mathlib

set_option maxHeartbeats 1000000
set_option maxRecDepth 4000

namespace SVSM

/-- Result of a fallible operation: success, a surfaced error, or a Rust
panic (failed assertion). This is Rust's Result enriched with the panic
exit path, which the mapping-guard factory can take on misaligned input. -/
inductive Res (ε α : Type) where
  | ok : α → Res ε α
  | err : ε → Res ε α
  | panicked : Res ε α
  deriving DecidableEq

/-- Error kinds surfaced by the snapshot core (spec section 7 taxonomy):
mapping-guard creation failure, storage-frame allocation failure, a faulting
guest read, and an RMP write-protect failure. -/
inductive SvsmError where
  | Mapping : SvsmError
  | Alloc : SvsmError
  | GuestRead : SvsmError
  | Rmp : SvsmError
  deriving DecidableEq

/-- Protocol-level error: unsupported request code, or a fatal error wrapping
an SvsmError (the image of the question-mark conversion in the source). -/
inductive SvsmReqError where
  | unsupported_call : SvsmReqError
  | fatal : SvsmError → SvsmReqError
  deriving DecidableEq

/-- Page granularity, from crate types: exactly two variants. -/
inductive PageSize where
  | Regular : PageSize
  | Huge : PageSize
  deriving DecidableEq

def PAGE_SIZE : Nat := 4096

def PAGE_SIZE_2M : Nat := 2097152

/-- Modelled from the spec: constant VIRT_ALIGN_4K = 0 of mm/virtualrange
(not included under src). -/
def VIRT_ALIGN_4K : Nat := 0

/-- Modelled from the spec: constant VIRT_ALIGN_2M = 9 of mm/virtualrange
(not included under src), so that 4096 <<< 9 = 2 MiB. -/
def VIRT_ALIGN_2M : Nat := 9

/-- Modelled from the spec: oracles for the external collaborators that are
not included under src. mapOk decides whether the per-CPU page-table mapping
of a given physical page succeeds, allocOk whether the storage-frame
allocation performed while capturing a given page succeeds, readOk whether
read_u8 succeeds at a given address, writable_phys_addr is the
writable-physical-address oracle, and rmpOk whether rmp_set_read_only
succeeds on a given virtual address. Guest physical memory itself is passed
separately as a byte map. -/
structure Env where
  mapOk : Nat → Bool
  allocOk : Nat → Bool
  readOk : Nat → Bool
  writable_phys_addr : Nat → Bool
  rmpOk : Nat → Bool

/-- One captured non-zero 4 KiB frame: destination physical address plus the
owned storage frame, modelled as a byte map indexed by offset. -/
structure MemPage4K where
  phys_addr : Nat
  data : Nat → Nat

/-- The snapshot store: the BACKUP_PAGES sequence, the ZERO_PAGES sequence
and the BACKUP_CREATED flag of the source, gathered in one record. -/
structure Store where
  backup_pages : List MemPage4K
  zero_pages : List Nat
  created : Bool

/-- PerCPUPageMappingGuard::create of mm/ptguards.rs. Asserts (panics unless)
start, size and end are aligned to PAGE_SIZE << alignment, then either fails
with a mapping error or returns the guard, reduced here to its virtual
address; the temporary per-CPU window is modelled as the identity mapping,
so the returned virtual address is paddr_start itself. -/
def PerCPUPageMappingGuard.create (env : Env) (paddr_start paddr_end alignment : Nat) :
    Res SvsmError Nat :=
  let align_mask := (PAGE_SIZE <<< alignment) - 1
  let size := paddr_end - paddr_start
  if size &&& align_mask = 0 ∧ paddr_start &&& align_mask = 0 ∧ paddr_end &&& align_mask = 0 then
    if env.mapOk paddr_start then Res.ok paddr_start else Res.err SvsmError.Mapping
  else
    Res.panicked

/-- Whether every byte that the capture loop of backup_4k_page reads from the
mapped window over the page at paddr is zero (the zero flag of the source's
byte loop). -/
def pageIsZero (mem : Nat → Nat) (paddr : Nat) : Bool :=
  (List.range PAGE_SIZE).all (fun i => mem (paddr + i) == 0)

/-- Whether every read_u8 performed by the capture loop over the page at
paddr succeeds; if not, the loop aborts with a guest-read error. -/
def readAllOk (env : Env) (paddr : Nat) : Bool :=
  (List.range PAGE_SIZE).all (fun i => env.readOk (paddr + i))

/-- backup_4k_page of protocols/backup.rs: map the frame, allocate a storage
frame, copy it byte by byte through read_u8 while tracking zeroness, then
append either a zero record or a non-zero record; returns whether the page
was recorded as non-zero. The store is returned on every path because the
real sequences are globals that survive an error return. -/
def backup_4k_page (env : Env) (mem : Nat → Nat) (st : Store) (paddr : Nat) :
    Store × Res SvsmError Bool :=
  match PerCPUPageMappingGuard.create env paddr (paddr + PAGE_SIZE) VIRT_ALIGN_4K with
  | Res.panicked => (st, Res.panicked)
  | Res.err e => (st, Res.err e)
  | Res.ok _virt_addr =>
    if env.allocOk paddr = false then (st, Res.err SvsmError.Alloc)
    else if readAllOk env paddr = false then (st, Res.err SvsmError.GuestRead)
    else if pageIsZero mem paddr then
      ({ st with zero_pages := st.zero_pages ++ [paddr] }, Res.ok false)
    else
      ({ st with backup_pages := st.backup_pages ++ [⟨paddr, fun i => mem (paddr + i)⟩] },
        Res.ok true)

/-- Loop body of the Huge arm of backup_page, iterating the given list of
loop indices. Mirrors the source exactly: each iteration first invokes
backup_4k_page on the current start_addr and only afterwards assigns
start_addr := paddr + i * PAGE_SIZE. The list of addresses actually passed
to backup_4k_page is returned as a trace. -/
def backupHugeGo (env : Env) (mem : Nat → Nat) (paddr : Nat) :
    Store → Nat → Nat → List Nat → Store × List Nat × Res SvsmError Nat
  | st, _start_addr, backup_size, [] => (st, [], Res.ok backup_size)
  | st, start_addr, backup_size, i :: rest =>
    match backup_4k_page env mem st start_addr with
    | (st₁, Res.ok success) =>
      let backup_size₁ := if success then backup_size + (PAGE_SIZE : Nat) else backup_size
      let out := backupHugeGo env mem paddr st₁ (paddr + i * PAGE_SIZE) backup_size₁ rest
      (out.1, start_addr :: out.2.1, out.2.2)
    | (st₁, Res.err e) => (st₁, [start_addr], Res.err e)
    | (st₁, Res.panicked) => (st₁, [start_addr], Res.panicked)

/-- backup_page of protocols/backup.rs: a Regular entry is one frame-copy; a
Huge entry runs the 512-iteration loop. Returns the pair of byte tallies
(backed up, skipped) and the trace of addresses passed to backup_4k_page. -/
def backup_page (env : Env) (mem : Nat → Nat) (st : Store) (paddr : Nat) (size : PageSize) :
    Store × List Nat × Res SvsmError (Nat × Nat) :=
  match size with
  | PageSize.Regular =>
    match backup_4k_page env mem st paddr with
    | (st₁, Res.ok true) => (st₁, [paddr], Res.ok ((PAGE_SIZE : Nat), 0))
    | (st₁, Res.ok false) => (st₁, [paddr], Res.ok (0, (PAGE_SIZE : Nat)))
    | (st₁, Res.err e) => (st₁, [paddr], Res.err e)
    | (st₁, Res.panicked) => (st₁, [paddr], Res.panicked)
  | PageSize.Huge =>
    match backupHugeGo env mem paddr st paddr 0 (List.range (PAGE_SIZE_2M / PAGE_SIZE)) with
    | (st₁, tr, Res.ok backup_size) => (st₁, tr, Res.ok (backup_size, PAGE_SIZE_2M - backup_size))
    | (st₁, tr, Res.err e) => (st₁, tr, Res.err e)
    | (st₁, tr, Res.panicked) => (st₁, tr, Res.panicked)

/-- Iteration of create_full_backup over the cloned address-set contents,
threading the two byte tallies and concatenating per-entry traces. -/
def backupLoopGo (env : Env) (mem : Nat → Nat) :
    Store → Nat → Nat → List (Nat × PageSize) → Store × List Nat × Res SvsmError (Nat × Nat)
  | st, total_size, skipped, [] => (st, [], Res.ok (total_size, skipped))
  | st, total_size, skipped, (phys_addr, size) :: rest =>
    match backup_page env mem st phys_addr size with
    | (st₁, tr, Res.ok (size_backed_up, size_skipped)) =>
      let out := backupLoopGo env mem st₁ (total_size + size_backed_up) (skipped + size_skipped) rest
      (out.1, tr ++ out.2.1, out.2.2)
    | (st₁, tr, Res.err e) => (st₁, tr, Res.err e)
    | (st₁, tr, Res.panicked) => (st₁, tr, Res.panicked)

/-- create_full_backup of protocols/backup.rs. If the snapshot already
exists this is a logged no-op success; otherwise every registered entry is
backed up, and on success the created flag is set. The entries parameter is
the snapshot of PAGES_TO_BACKUP.iter_addresses at call time. -/
def create_full_backup (env : Env) (mem : Nat → Nat) (entries : List (Nat × PageSize))
    (st : Store) : Store × List Nat × Res SvsmReqError Unit :=
  if st.created then (st, [], Res.ok ()) else
  match backupLoopGo env mem st 0 0 entries with
  | (st₁, tr, Res.ok _) => ({ st₁ with created := true }, tr, Res.ok ())
  | (st₁, tr, Res.err e) => (st₁, tr, Res.err (SvsmReqError.fatal e))
  | (st₁, tr, Res.panicked) => (st₁, tr, Res.panicked)

/-- Write one whole 4 KiB frame of stored data over memory at paddr: the
whole-frame store performed by restore_page through the mapped window. -/
def writeFrame (mem : Nat → Nat) (paddr : Nat) (data : Nat → Nat) : Nat → Nat :=
  fun a => if paddr ≤ a ∧ a < paddr + PAGE_SIZE then data (a - paddr) else mem a

/-- Modelled from the spec: zero_mem_region of utils (not included under
src), the zero-fill primitive over a half-open virtual range. -/
def zero_mem_region (mem : Nat → Nat) (start stop : Nat) : Nat → Nat :=
  fun a => if start ≤ a ∧ a < stop then 0 else mem a

/-- restore_page of protocols/backup.rs: skip (successfully, with no
mapping) when the destination is not writable, otherwise map it and write
the stored frame back. The middle component traces the physical addresses
for which a mapping guard was created. -/
def restore_page (env : Env) (mem : Nat → Nat) (page_src : MemPage4K) :
    (Nat → Nat) × List Nat × Res SvsmError Unit :=
  let paddr_dest := page_src.phys_addr
  if env.writable_phys_addr paddr_dest = false then (mem, [], Res.ok ())
  else
    match PerCPUPageMappingGuard.create env paddr_dest (paddr_dest + PAGE_SIZE) VIRT_ALIGN_4K with
    | Res.panicked => (mem, [], Res.panicked)
    | Res.err e => (mem, [], Res.err e)
    | Res.ok virt_addr => (writeFrame mem virt_addr page_src.data, [paddr_dest], Res.ok ())

/-- zero_page of protocols/backup.rs: same writable-oracle skip, otherwise
map and zero-fill the 4 KiB window. -/
def zero_page (env : Env) (mem : Nat → Nat) (paddr : Nat) :
    (Nat → Nat) × List Nat × Res SvsmError Unit :=
  if env.writable_phys_addr paddr = false then (mem, [], Res.ok ())
  else
    match PerCPUPageMappingGuard.create env paddr (paddr + PAGE_SIZE) VIRT_ALIGN_4K with
    | Res.panicked => (mem, [], Res.panicked)
    | Res.err e => (mem, [], Res.err e)
    | Res.ok virt_addr => (zero_mem_region mem virt_addr (virt_addr + PAGE_SIZE), [paddr], Res.ok ())

/-- Restore loop over the BACKUP_PAGES sequence, aborting on the first
error, threading memory and concatenating mapping traces. -/
def restoreLoopGo (env : Env) : (Nat → Nat) → List MemPage4K →
    (Nat → Nat) × List Nat × Res SvsmError Unit
  | mem, [] => (mem, [], Res.ok ())
  | mem, page_src :: rest =>
    match restore_page env mem page_src with
    | (mem₁, tr, Res.ok _) =>
      let out := restoreLoopGo env mem₁ rest
      (out.1, tr ++ out.2.1, out.2.2)
    | (mem₁, tr, Res.err e) => (mem₁, tr, Res.err e)
    | (mem₁, tr, Res.panicked) => (mem₁, tr, Res.panicked)

/-- Restore loop over the ZERO_PAGES sequence. -/
def zeroLoopGo (env : Env) : (Nat → Nat) → List Nat →
    (Nat → Nat) × List Nat × Res SvsmError Unit
  | mem, [] => (mem, [], Res.ok ())
  | mem, paddr :: rest =>
    match zero_page env mem paddr with
    | (mem₁, tr, Res.ok _) =>
      let out := zeroLoopGo env mem₁ rest
      (out.1, tr ++ out.2.1, out.2.2)
    | (mem₁, tr, Res.err e) => (mem₁, tr, Res.err e)
    | (mem₁, tr, Res.panicked) => (mem₁, tr, Res.panicked)

/-- Final loop of restore_pages_from_backup over the PAGES_TO_CLEAR
snapshot. Its body is an empty TODO in the source, so the loop consumes the
entries and does nothing. -/
def clearLoopGo : List (Nat × PageSize) → Unit
  | [] => ()
  | _ :: rest => clearLoopGo rest

/-- restore_pages_from_backup of protocols/backup.rs: replay the non-zero
records, then the zero records, then run the (empty-bodied) clear loop over
the PAGES_TO_CLEAR snapshot. clears is PAGES_TO_CLEAR.iter_addresses at
call time; the result is the final guest memory. -/
def restore_pages_from_backup (env : Env) (st : Store) (clears : List (Nat × PageSize))
    (mem : Nat → Nat) : (Nat → Nat) × List Nat × Res SvsmReqError Unit :=
  match restoreLoopGo env mem st.backup_pages with
  | (mem₁, tr₁, Res.ok _) =>
    match zeroLoopGo env mem₁ st.zero_pages with
    | (mem₂, tr₂, Res.ok _) =>
      let _ := clearLoopGo clears
      (mem₂, tr₁ ++ tr₂, Res.ok ())
    | (mem₂, tr₂, Res.err e) => (mem₂, tr₁ ++ tr₂, Res.err (SvsmReqError.fatal e))
    | (mem₂, tr₂, Res.panicked) => (mem₂, tr₁ ++ tr₂, Res.panicked)
  | (mem₁, tr₁, Res.err e) => (mem₁, tr₁, Res.err (SvsmReqError.fatal e))
  | (mem₁, tr₁, Res.panicked) => (mem₁, tr₁, Res.panicked)

/-- set_read_only of protocols/backup.rs: map the entry at its declared
granularity and invoke rmp_set_read_only (modelled by the rmpOk oracle) on
the resulting virtual window. -/
def set_read_only (env : Env) (paddr : Nat) (size : PageSize) : Res SvsmError Unit :=
  let guard :=
    match size with
    | PageSize.Huge => PerCPUPageMappingGuard.create env paddr (paddr + PAGE_SIZE_2M) VIRT_ALIGN_2M
    | PageSize.Regular => PerCPUPageMappingGuard.create env paddr (paddr + PAGE_SIZE) VIRT_ALIGN_4K
  match guard with
  | Res.panicked => Res.panicked
  | Res.err e => Res.err e
  | Res.ok virt_addr => if env.rmpOk virt_addr then Res.ok () else Res.err SvsmError.Rmp

/-- enable_copy_on_write of protocols/backup.rs: write-protect every entry
of the PAGES_TO_BACKUP snapshot, aborting on the first failure. -/
def enable_copy_on_write (env : Env) : List (Nat × PageSize) → Res SvsmReqError Unit
  | [] => Res.ok ()
  | (phys_addr, size) :: rest =>
    match set_read_only env phys_addr size with
    | Res.ok _ => enable_copy_on_write env rest
    | Res.err e => Res.err (SvsmReqError.fatal e)
    | Res.panicked => Res.panicked

/-- Modelled from the spec: the RequestParams block of protocols/mod.rs (not
included under src). The backup protocol passes it through unused, so only
an opaque payload is modelled. -/
structure RequestParams where
  payload : Nat
  deriving DecidableEq

/-- The mutable state this module touches: the snapshot store globals and
guest physical memory. The two address sets are inputs only, never mutated
by this protocol. -/
structure World where
  store : Store
  mem : Nat → Nat

/-- backup_protocol_request of protocols/backup.rs: dispatch on the request
code (0 FULL_BACKUP, 1 RESTORE, 2 ENABLE_COPY_ON_WRITE, anything else
unsupported). backupEntries and clearEntries are the address-set snapshots
consumed by the operations; params is returned as-is, modelling the unused
mutable reference. -/
def backup_protocol_request (env : Env) (backupEntries clearEntries : List (Nat × PageSize))
    (request : Nat) (params : RequestParams) (w : World) :
    World × RequestParams × Res SvsmReqError Unit :=
  match request with
  | 0 =>
    let out := create_full_backup env w.mem backupEntries w.store
    ({ w with store := out.1 }, params, out.2.2)
  | 1 =>
    let out := restore_pages_from_backup env w.store clearEntries w.mem
    ({ w with mem := out.1 }, params, out.2.2)
  | 2 => (w, params, enable_copy_on_write env backupEntries)
  | _ => (w, params, Res.err SvsmReqError.unsupported_call)

/-- Rank of a PageSize, inducing the derived Rust Ord on the enum. -/
def psIdx : PageSize → Nat
  | PageSize.Regular => 0
  | PageSize.Huge => 1

/-- Strict order on (PhysAddr, PageSize) pairs: the lexicographic order the
BTreeSet of mm/set.rs sorts by. -/
def pairLt (x y : Nat × PageSize) : Prop :=
  x.1 < y.1 ∨ (x.1 = y.1 ∧ psIdx x.2 < psIdx y.2)

instance (x y : Nat × PageSize) : Decidable (pairLt x y) := by
  unfold pairLt
  infer_instance

/-- Ordered insertion without duplication: the effect of BTreeSet::insert on
the sorted element sequence. -/
def insertSorted (x : Nat × PageSize) : List (Nat × PageSize) → List (Nat × PageSize)
  | [] => [x]
  | y :: ys => if pairLt x y then x :: y :: ys else if x = y then y :: ys else y :: insertSorted x ys

/-- The Set container of mm/set.rs: a spinlocked BTreeSet of
(PhysAddr, PageSize) pairs, modelled as its strictly-sorted element list. -/
structure Set where
  set : List (Nat × PageSize)

/-- Set::new of mm/set.rs: the empty container. -/
def Set.new : Set :=
  ⟨[]⟩

/-- Set::insert_addr of mm/set.rs. -/
def Set.insert_addr (s : Set) (value : Nat) (size : PageSize) : Set :=
  ⟨insertSorted (value, size) s.set⟩

/-- Set::remove_addr of mm/set.rs: returns whether the pair was present,
together with the updated container. -/
def Set.remove_addr (s : Set) (value : Nat) (size : PageSize) : Bool × Set :=
  (decide ((value, size) ∈ s.set), ⟨s.set.filter (fun y => y ≠ (value, size))⟩)

/-- Set::contains_addr of mm/set.rs. -/
def Set.contains_addr (s : Set) (value : Nat) (size : PageSize) : Bool :=
  decide ((value, size) ∈ s.set)

/-- Set::iter_addresses of mm/set.rs: clone the container under the lock
and iterate the clone, i.e. yield the element sequence as of the call. -/
def Set.iter_addresses (s : Set) : List (Nat × PageSize) :=
  s.set

/-- Set::size of mm/set.rs. -/
def Set.size (s : Set) : Nat :=
  s.set.length

/-- Well-formedness of the Set model: the element list is strictly sorted,
as BTreeSet iteration guarantees. -/
def Set.WF (s : Set) : Prop :=
  s.set.Pairwise pairLt

/-- Addresses passed to backup_4k_page by the Huge loop of backup_page when
every capture succeeds, as a function of the remaining loop indices and the
running start_addr. -/
def traceForm (paddr : Nat) : Nat → List Nat → List Nat
  | _start_addr, [] => []
  | start_addr, i :: rest => start_addr :: traceForm paddr (paddr + i * PAGE_SIZE) rest

/-- Environment in which every collaborator succeeds and every page is
writable. -/
def envAll : Env :=
  ⟨fun _ => true, fun _ => true, fun _ => true, fun _ => true, fun _ => true⟩

/-- Environment in which every mapping-guard creation fails. -/
def envNoMap : Env :=
  ⟨fun _ => false, fun _ => true, fun _ => true, fun _ => true, fun _ => true⟩

/-- Environment in which no physical address is writable. -/
def envNoWrite : Env :=
  ⟨fun _ => true, fun _ => true, fun _ => true, fun _ => false, fun _ => true⟩

/-- A page that is all zero except its last byte, the boundary case of the
classification claim. -/
def memLastByte : Nat → Nat :=
  fun a => if a = 4095 then 1 else 0

/-- Capture-time memory of the huge-page round-trip counterexample: a single
one byte at the base of sub-frame 511 of the huge page at 0. -/
def memA : Nat → Nat :=
  fun a => if a = 2093056 then 1 else 0

/-- Mutated memory of the huge-page round-trip counterexample: the same byte
changed to 7. -/
def memB : Nat → Nat :=
  fun a => if a = 2093056 then 7 else 0

/-- A page covers an address when the address lies in its 4 KiB range. -/
def inPage (paddr a : Nat) : Prop :=
  paddr ≤ a ∧ a < paddr + PAGE_SIZE

/-- A non-zero record faithfully captures memory M at its address. -/
def recGood (M : Nat → Nat) (r : MemPage4K) : Prop :=
  ∀ i, i < PAGE_SIZE → r.data i = M (r.phys_addr + i)

/-- A zero record is sound for memory M: the whole frame was zero. -/
def zeroGood (M : Nat → Nat) (paddr : Nat) : Prop :=
  ∀ i, i < PAGE_SIZE → M (paddr + i) = 0

/-- The snapshot store holds a record for the page at this address, either
as a non-zero record or as a zero record. -/
def coveredBy (st : Store) (paddr : Nat) : Prop :=
  (∃ r ∈ st.backup_pages, r.phys_addr = paddr) ∨ paddr ∈ st.zero_pages

theorem pageIsZero_eq_true_iff (mem : Nat → Nat) (p : Nat) :
    pageIsZero mem p = true ↔ ∀ i, i < PAGE_SIZE → mem (p + i) = 0 := by
  simp [pageIsZero, List.all_eq_true, List.mem_range]

theorem pageIsZero_eq_false_iff (mem : Nat → Nat) (p : Nat) :
    pageIsZero mem p = false ↔ ∃ i, i < PAGE_SIZE ∧ mem (p + i) ≠ 0 := by
  rw [← Bool.not_eq_true, pageIsZero_eq_true_iff]
  push_neg
  constructor
  · rintro ⟨i, hi, hne⟩
    exact ⟨i, hi, hne⟩
  · rintro ⟨i, hi, hne⟩
    exact ⟨i, hi, hne⟩

theorem readAllOk_of (env : Env) (p : Nat) (h : ∀ q, env.readOk q = true) :
    readAllOk env p = true := by
  simp [readAllOk, List.all_eq_true, h]

theorem pageIsZero_const_zero (p : Nat) : pageIsZero (fun _ => 0) p = true := by
  simp [pageIsZero]

theorem shift_page_size (k : Nat) : (PAGE_SIZE <<< k : Nat) = 2 ^ (12 + k) := by
  rw [Nat.shiftLeft_eq, pow_add]
  norm_num [PAGE_SIZE]

theorem and_mask_eq_mod (n k : Nat) :
    n &&& (PAGE_SIZE <<< k - 1) = n % (PAGE_SIZE <<< k) := by
  rw [shift_page_size, Nat.and_pow_two_sub_one_eq_mod]

theorem guard_create_panicked (env : Env) (ps pe al : Nat)
    (h : ¬((pe - ps) % (PAGE_SIZE <<< al) = 0 ∧ ps % (PAGE_SIZE <<< al) = 0 ∧
      pe % (PAGE_SIZE <<< al) = 0)) :
    PerCPUPageMappingGuard.create env ps pe al = Res.panicked := by
  simp only [PerCPUPageMappingGuard.create, and_mask_eq_mod]
  rw [if_neg h]

theorem guard_create_4k (env : Env) (p : Nat) (hal : p % PAGE_SIZE = 0) :
    PerCPUPageMappingGuard.create env p (p + PAGE_SIZE) VIRT_ALIGN_4K =
      (if env.mapOk p then Res.ok p else Res.err SvsmError.Mapping) := by
  simp only [PerCPUPageMappingGuard.create, and_mask_eq_mod, VIRT_ALIGN_4K]
  rw [if_pos]
  refine ⟨?_, ?_, ?_⟩
  · simp [Nat.add_sub_cancel_left, PAGE_SIZE]
  · simpa [PAGE_SIZE] using hal
  · simpa [Nat.add_mod_right, PAGE_SIZE] using hal

theorem guard_create_ok_addr (env : Env) (ps pe al v : Nat)
    (h : PerCPUPageMappingGuard.create env ps pe al = Res.ok v) : v = ps := by
  simp only [PerCPUPageMappingGuard.create] at h
  split at h <;> first
    | (split at h <;> first | (cases h; rfl) | cases h)
    | cases h

theorem b4k_run (env : Env) (mem : Nat → Nat) (st : Store) (p : Nat)
    (hal : p % PAGE_SIZE = 0) (hm : env.mapOk p = true) (ha : env.allocOk p = true)
    (hr : readAllOk env p = true) :
    backup_4k_page env mem st p =
      (if pageIsZero mem p then ({ st with zero_pages := st.zero_pages ++ [p] }, Res.ok false)
       else ({ st with backup_pages := st.backup_pages ++ [⟨p, fun i => mem (p + i)⟩] },
         Res.ok true)) := by
  unfold backup_4k_page
  rw [guard_create_4k env p hal, if_pos hm]
  simp [ha, hr]

theorem b4k_evolve (env : Env) (mem : Nat → Nat) (st : Store) (p : Nat) (st₁ : Store)
    (r : Res SvsmError Bool) (h : backup_4k_page env mem st p = (st₁, r)) :
    ∃ l₁ l₂, st₁.backup_pages = st.backup_pages ++ l₁ ∧ st₁.zero_pages = st.zero_pages ++ l₂ ∧
      st₁.created = st.created ∧ (∀ x ∈ l₁, recGood mem x) ∧ (∀ q ∈ l₂, zeroGood mem q) := by
  unfold backup_4k_page at h
  split at h
  · cases h
    exact ⟨[], [], by simp, by simp, rfl, by simp, by simp⟩
  · cases h
    exact ⟨[], [], by simp, by simp, rfl, by simp, by simp⟩
  · split at h
    · cases h
      exact ⟨[], [], by simp, by simp, rfl, by simp, by simp⟩
    · split at h
      · cases h
        exact ⟨[], [], by simp, by simp, rfl, by simp, by simp⟩
      · split at h
        case isTrue hz =>
          cases h
          refine ⟨[], [p], by simp, by simp, rfl, by simp, ?_⟩
          intro q hq
          rcases List.mem_singleton.mp hq with rfl
          exact fun i hi => (pageIsZero_eq_true_iff mem q).mp hz i hi
        case isFalse hz =>
          cases h
          refine ⟨[⟨p, fun i => mem (p + i)⟩], [], by simp, by simp, rfl, ?_, by simp⟩
          intro x hx
          rcases List.mem_singleton.mp hx with rfl
          intro i _
          rfl

theorem coveredBy_mono (st st₁ : Store) (p : Nat) (l₁ : List MemPage4K) (l₂ : List Nat)
    (hbp : st₁.backup_pages = st.backup_pages ++ l₁) (hzp : st₁.zero_pages = st.zero_pages ++ l₂)
    (h : coveredBy st p) : coveredBy st₁ p := by
  rcases h with ⟨r, hr, hrp⟩ | hz
  · exact Or.inl ⟨r, by rw [hbp]; exact List.mem_append_left _ hr, hrp⟩
  · exact Or.inr (by rw [hzp]; exact List.mem_append_left _ hz)

theorem b4k_covers (env : Env) (mem : Nat → Nat) (st : Store) (p : Nat) (st₁ : Store) (b : Bool)
    (h : backup_4k_page env mem st p = (st₁, Res.ok b)) : coveredBy st₁ p := by
  unfold backup_4k_page at h
  split at h
  · cases h
  · cases h
  · split at h
    · cases h
    · split at h
      · cases h
      · split at h
        · cases h
          exact Or.inr (by simp)
        · cases h
          exact Or.inl ⟨⟨p, fun i => mem (p + i)⟩, by simp, rfl⟩

theorem hugeGo_evolve (env : Env) (mem : Nat → Nat) (paddr : Nat) (is : List Nat) :
    ∀ (st : Store) (start bsize : Nat) (st₁ : Store) (tr : List Nat) (r : Res SvsmError Nat),
      backupHugeGo env mem paddr st start bsize is = (st₁, tr, r) →
      ∃ l₁ l₂, st₁.backup_pages = st.backup_pages ++ l₁ ∧ st₁.zero_pages = st.zero_pages ++ l₂ ∧
        st₁.created = st.created ∧ (∀ x ∈ l₁, recGood mem x) ∧ (∀ q ∈ l₂, zeroGood mem q) := by
  induction is with
  | nil =>
    intro st start bsize st₁ tr r h
    cases h
    exact ⟨[], [], by simp, by simp, rfl, by simp, by simp⟩
  | cons i rest ih =>
    intro st start bsize st₁ tr r h
    unfold backupHugeGo at h
    rcases hb : backup_4k_page env mem st start with ⟨st', rb⟩
    rw [hb] at h
    obtain ⟨la₁, la₂, ea₁, ea₂, ea₃, ga₁, ga₂⟩ := b4k_evolve env mem st start st' rb hb
    cases rb with
    | ok succ =>
      rcases ho : backupHugeGo env mem paddr st' (paddr + i * PAGE_SIZE)
          (if succ then bsize + PAGE_SIZE else bsize) rest with ⟨st'', tr'', r''⟩
      simp only [ho] at h
      cases h
      obtain ⟨lb₁, lb₂, eb₁, eb₂, eb₃, gb₁, gb₂⟩ := ih _ _ _ _ _ _ ho
      refine ⟨la₁ ++ lb₁, la₂ ++ lb₂, ?_, ?_, ?_, ?_, ?_⟩
      · rw [eb₁, ea₁, List.append_assoc]
      · rw [eb₂, ea₂, List.append_assoc]
      · rw [eb₃, ea₃]
      · intro x hx
        rcases List.mem_append.mp hx with hx | hx
        · exact ga₁ x hx
        · exact gb₁ x hx
      · intro q hq
        rcases List.mem_append.mp hq with hq | hq
        · exact ga₂ q hq
        · exact gb₂ q hq
    | err e =>
      cases h
      exact ⟨la₁, la₂, ea₁, ea₂, ea₃, ga₁, ga₂⟩
    | panicked =>
      cases h
      exact ⟨la₁, la₂, ea₁, ea₂, ea₃, ga₁, ga₂⟩

theorem hugeGo_trace_of_ok (env : Env) (mem : Nat → Nat) (paddr : Nat) (is : List Nat) :
    ∀ (st : Store) (start bsize : Nat) (st₁ : Store) (tr : List Nat) (n : Nat),
      backupHugeGo env mem paddr st start bsize is = (st₁, tr, Res.ok n) →
      tr = traceForm paddr start is := by
  induction is with
  | nil =>
    intro st start bsize st₁ tr n h
    cases h
    rfl
  | cons i rest ih =>
    intro st start bsize st₁ tr n h
    unfold backupHugeGo at h
    rcases hb : backup_4k_page env mem st start with ⟨st', rb⟩
    rw [hb] at h
    cases rb with
    | ok succ =>
      rcases ho : backupHugeGo env mem paddr st' (paddr + i * PAGE_SIZE)
          (if succ then bsize + PAGE_SIZE else bsize) rest with ⟨st'', tr'', r''⟩
      simp only [ho] at h
      cases h
      rw [traceForm, ih _ _ _ _ _ _ ho]
    | err e => cases h
    | panicked => cases h

theorem hugeGo_covers (env : Env) (mem : Nat → Nat) (paddr : Nat) (is : List Nat) :
    ∀ (st : Store) (start bsize : Nat) (st₁ : Store) (tr : List Nat) (n : Nat),
      backupHugeGo env mem paddr st start bsize is = (st₁, tr, Res.ok n) →
      ∀ q ∈ tr, coveredBy st₁ q := by
  induction is with
  | nil =>
    intro st start bsize st₁ tr n h
    cases h
    simp
  | cons i rest ih =>
    intro st start bsize st₁ tr n h
    unfold backupHugeGo at h
    rcases hb : backup_4k_page env mem st start with ⟨st', rb⟩
    rw [hb] at h
    cases rb with
    | ok succ =>
      rcases ho : backupHugeGo env mem paddr st' (paddr + i * PAGE_SIZE)
          (if succ then bsize + PAGE_SIZE else bsize) rest with ⟨st'', tr'', r''⟩
      simp only [ho] at h
      cases h
      intro q hq
      rcases List.mem_cons.mp hq with rfl | hq
      · obtain ⟨lb₁, lb₂, eb₁, eb₂, _, _, _⟩ := hugeGo_evolve env mem paddr rest _ _ _ _ _ _ ho
        exact coveredBy_mono st' _ q lb₁ lb₂ eb₁ eb₂ (b4k_covers env mem st q st' succ hb)
      · exact ih _ _ _ _ _ _ ho q hq
    | err e => cases h
    | panicked => cases h

theorem hugeGo_zero_run (env : Env) (mem : Nat → Nat) (paddr : Nat)
    (hm : ∀ q, env.mapOk q = true) (ha : ∀ q, env.allocOk q = true)
    (hre : ∀ q, env.readOk q = true) (is : List Nat) :
    ∀ (st : Store) (start bsize : Nat),
      (∀ q ∈ traceForm paddr start is, q % PAGE_SIZE = 0 ∧ pageIsZero mem q = true) →
      backupHugeGo env mem paddr st start bsize is =
        ({ st with zero_pages := st.zero_pages ++ traceForm paddr start is },
          traceForm paddr start is, Res.ok bsize) := by
  induction is with
  | nil =>
    intro st start bsize _
    simp [backupHugeGo, traceForm]
  | cons i rest ih =>
    intro st start bsize hz
    have hstart := hz start (by rw [traceForm]; exact List.mem_cons_self _ _)
    unfold backupHugeGo
    rw [b4k_run env mem st start hstart.1 (hm start) (ha start) (readAllOk_of env start hre),
      if_pos hstart.2]
    have hrest : ∀ q ∈ traceForm paddr (paddr + i * PAGE_SIZE) rest,
        q % PAGE_SIZE = 0 ∧ pageIsZero mem q = true := by
      intro q hq
      exact hz q (by rw [traceForm]; exact List.mem_cons_of_mem _ hq)
    simp only [traceForm]
    simp [ih { st with zero_pages := st.zero_pages ++ [start] } (paddr + i * PAGE_SIZE)
      bsize hrest, List.append_assoc]

theorem backup_page_evolve (env : Env) (mem : Nat → Nat) (st : Store) (p : Nat) (sz : PageSize)
    (st₁ : Store) (tr : List Nat) (r : Res SvsmError (Nat × Nat))
    (h : backup_page env mem st p sz = (st₁, tr, r)) :
    ∃ l₁ l₂, st₁.backup_pages = st.backup_pages ++ l₁ ∧ st₁.zero_pages = st.zero_pages ++ l₂ ∧
      st₁.created = st.created ∧ (∀ x ∈ l₁, recGood mem x) ∧ (∀ q ∈ l₂, zeroGood mem q) := by
  cases sz with
  | Regular =>
    unfold backup_page at h
    rcases hb : backup_4k_page env mem st p with ⟨st', rb⟩
    rw [hb] at h
    obtain ⟨l₁, l₂, e₁, e₂, e₃, g₁, g₂⟩ := b4k_evolve env mem st p st' rb hb
    cases rb with
    | ok succ =>
      cases succ <;> (cases h; exact ⟨l₁, l₂, e₁, e₂, e₃, g₁, g₂⟩)
    | err e =>
      cases h
      exact ⟨l₁, l₂, e₁, e₂, e₃, g₁, g₂⟩
    | panicked =>
      cases h
      exact ⟨l₁, l₂, e₁, e₂, e₃, g₁, g₂⟩
  | Huge =>
    unfold backup_page at h
    rcases hh : backupHugeGo env mem p st p 0 (List.range (PAGE_SIZE_2M / PAGE_SIZE))
      with ⟨st', tr', rh⟩
    rw [hh] at h
    obtain ⟨l₁, l₂, e₁, e₂, e₃, g₁, g₂⟩ := hugeGo_evolve env mem p _ _ _ _ _ _ _ hh
    cases rh <;> (cases h; exact ⟨l₁, l₂, e₁, e₂, e₃, g₁, g₂⟩)

theorem backup_page_covers (env : Env) (mem : Nat → Nat) (st : Store) (p : Nat) (sz : PageSize)
    (st₁ : Store) (tr : List Nat) (v : Nat × Nat)
    (h : backup_page env mem st p sz = (st₁, tr, Res.ok v)) : ∀ q ∈ tr, coveredBy st₁ q := by
  cases sz with
  | Regular =>
    unfold backup_page at h
    rcases hb : backup_4k_page env mem st p with ⟨st', rb⟩
    rw [hb] at h
    cases rb with
    | ok succ =>
      cases succ <;>
        (cases h
         intro q hq
         rcases List.mem_singleton.mp hq with rfl
         exact b4k_covers env mem st q _ _ hb)
    | err e => cases h
    | panicked => cases h
  | Huge =>
    unfold backup_page at h
    rcases hh : backupHugeGo env mem p st p 0 (List.range (PAGE_SIZE_2M / PAGE_SIZE))
      with ⟨st', tr', rh⟩
    rw [hh] at h
    cases rh with
    | ok bs =>
      cases h
      exact hugeGo_covers env mem p _ _ _ _ _ _ _ hh
    | err e => cases h
    | panicked => cases h

theorem backup_page_huge_trace (env : Env) (mem : Nat → Nat) (st : Store) (p : Nat)
    (st₁ : Store) (tr : List Nat) (v : Nat × Nat)
    (h : backup_page env mem st p PageSize.Huge = (st₁, tr, Res.ok v)) :
    tr = traceForm p p (List.range (PAGE_SIZE_2M / PAGE_SIZE)) := by
  unfold backup_page at h
  rcases hh : backupHugeGo env mem p st p 0 (List.range (PAGE_SIZE_2M / PAGE_SIZE))
    with ⟨st', tr', rh⟩
  rw [hh] at h
  cases rh with
  | ok bs =>
    cases h
    exact hugeGo_trace_of_ok env mem p _ _ _ _ _ _ _ hh
  | err e => cases h
  | panicked => cases h

theorem backup_page_regular_trace (env : Env) (mem : Nat → Nat) (st : Store) (p : Nat)
    (st₁ : Store) (tr : List Nat) (v : Nat × Nat)
    (h : backup_page env mem st p PageSize.Regular = (st₁, tr, Res.ok v)) : tr = [p] := by
  unfold backup_page at h
  rcases hb : backup_4k_page env mem st p with ⟨st', rb⟩
  rw [hb] at h
  cases rb with
  | ok succ => cases succ <;> (cases h; rfl)
  | err e => cases h
  | panicked => cases h

theorem loopGo_cons_ok (env : Env) (mem : Nat → Nat) (st : Store) (t s p : Nat) (sz : PageSize)
    (rest : List (Nat × PageSize)) (st₁ : Store) (tr : List Nat) (b sk : Nat)
    (h : backup_page env mem st p sz = (st₁, tr, Res.ok (b, sk))) :
    backupLoopGo env mem st t s ((p, sz) :: rest) =
      ((backupLoopGo env mem st₁ (t + b) (s + sk) rest).1,
       tr ++ (backupLoopGo env mem st₁ (t + b) (s + sk) rest).2.1,
       (backupLoopGo env mem st₁ (t + b) (s + sk) rest).2.2) := by
  simp only [backupLoopGo]
  rw [h]

theorem loopGo_cons_err (env : Env) (mem : Nat → Nat) (st : Store) (t s p : Nat) (sz : PageSize)
    (rest : List (Nat × PageSize)) (st₁ : Store) (tr : List Nat) (e : SvsmError)
    (h : backup_page env mem st p sz = (st₁, tr, Res.err e)) :
    backupLoopGo env mem st t s ((p, sz) :: rest) = (st₁, tr, Res.err e) := by
  unfold backupLoopGo
  rw [h]

theorem loopGo_evolve (env : Env) (mem : Nat → Nat) (entries : List (Nat × PageSize)) :
    ∀ (st : Store) (t s : Nat) (st₁ : Store) (tr : List Nat) (r : Res SvsmError (Nat × Nat)),
      backupLoopGo env mem st t s entries = (st₁, tr, r) →
      ∃ l₁ l₂, st₁.backup_pages = st.backup_pages ++ l₁ ∧ st₁.zero_pages = st.zero_pages ++ l₂ ∧
        st₁.created = st.created ∧ (∀ x ∈ l₁, recGood mem x) ∧ (∀ q ∈ l₂, zeroGood mem q) := by
  induction entries with
  | nil =>
    intro st t s st₁ tr r h
    cases h
    exact ⟨[], [], by simp, by simp, rfl, by simp, by simp⟩
  | cons a rest ih =>
    obtain ⟨p, sz⟩ := a
    intro st t s st₁ tr r h
    rcases hbp : backup_page env mem st p sz with ⟨st', tr', rp⟩
    obtain ⟨la₁, la₂, ea₁, ea₂, ea₃, ga₁, ga₂⟩ :=
      backup_page_evolve env mem st p sz st' tr' rp hbp
    cases rp with
    | ok v =>
      obtain ⟨b, sk⟩ := v
      rw [loopGo_cons_ok env mem st t s p sz rest st' tr' b sk hbp] at h
      rcases ho : backupLoopGo env mem st' (t + b) (s + sk) rest with ⟨st'', tr'', r''⟩
      simp only [ho] at h
      cases h
      obtain ⟨lb₁, lb₂, eb₁, eb₂, eb₃, gb₁, gb₂⟩ := ih _ _ _ _ _ _ ho
      refine ⟨la₁ ++ lb₁, la₂ ++ lb₂, ?_, ?_, ?_, ?_, ?_⟩
      · rw [eb₁, ea₁, List.append_assoc]
      · rw [eb₂, ea₂, List.append_assoc]
      · rw [eb₃, ea₃]
      · intro x hx
        rcases List.mem_append.mp hx with hx | hx
        · exact ga₁ x hx
        · exact gb₁ x hx
      · intro q hq
        rcases List.mem_append.mp hq with hq | hq
        · exact ga₂ q hq
        · exact gb₂ q hq
    | err e =>
      rw [loopGo_cons_err env mem st t s p sz rest st' tr' e hbp] at h
      cases h
      exact ⟨la₁, la₂, ea₁, ea₂, ea₃, ga₁, ga₂⟩
    | panicked =>
      unfold backupLoopGo at h
      rw [hbp] at h
      cases h
      exact ⟨la₁, la₂, ea₁, ea₂, ea₃, ga₁, ga₂⟩

theorem loopGo_append (env : Env) (mem : Nat → Nat) (done : List (Nat × PageSize)) :
    ∀ (st : Store) (t s : Nat) (st₁ : Store) (tr₁ : List Nat) (t₁ s₁ : Nat),
      backupLoopGo env mem st t s done = (st₁, tr₁, Res.ok (t₁, s₁)) →
      ∀ z, backupLoopGo env mem st t s (done ++ z) =
        ((backupLoopGo env mem st₁ t₁ s₁ z).1,
         tr₁ ++ (backupLoopGo env mem st₁ t₁ s₁ z).2.1,
         (backupLoopGo env mem st₁ t₁ s₁ z).2.2) := by
  induction done with
  | nil =>
    intro st t s st₁ tr₁ t₁ s₁ h z
    cases h
    simp
  | cons a rest ih =>
    obtain ⟨p, sz⟩ := a
    intro st t s st₁ tr₁ t₁ s₁ h z
    rcases hbp : backup_page env mem st p sz with ⟨st', tr', rp⟩
    cases rp with
    | ok v =>
      obtain ⟨b, sk⟩ := v
      rw [loopGo_cons_ok env mem st t s p sz rest st' tr' b sk hbp] at h
      rcases ho : backupLoopGo env mem st' (t + b) (s + sk) rest with ⟨st'', tr'', r''⟩
      simp only [ho] at h
      cases h
      rw [List.cons_append, loopGo_cons_ok env mem st t s p sz (rest ++ z) st' tr' b sk hbp,
        ih _ _ _ _ _ _ _ ho z]
      simp [List.append_assoc]
    | err e =>
      rw [loopGo_cons_err env mem st t s p sz rest st' tr' e hbp] at h
      cases h
    | panicked =>
      unfold backupLoopGo at h
      rw [hbp] at h
      cases h

theorem loopGo_covered (env : Env) (mem : Nat → Nat) (entries : List (Nat × PageSize)) :
    ∀ (st : Store) (t s : Nat) (st₁ : Store) (tr : List Nat) (v : Nat × Nat),
      backupLoopGo env mem st t s entries = (st₁, tr, Res.ok v) →
      ∀ p sz, (p, sz) ∈ entries →
        (sz = PageSize.Regular → coveredBy st₁ p) ∧
        (sz = PageSize.Huge →
          ∀ q ∈ traceForm p p (List.range (PAGE_SIZE_2M / PAGE_SIZE)), coveredBy st₁ q) := by
  induction entries with
  | nil =>
    intro st t s st₁ tr v h p sz hp
    cases hp
  | cons a rest ih =>
    obtain ⟨p₀, sz₀⟩ := a
    intro st t s st₁ tr v h p sz hp
    rcases hbp : backup_page env mem st p₀ sz₀ with ⟨st', tr', rp⟩
    cases rp with
    | ok w =>
      obtain ⟨b, sk⟩ := w
      rw [loopGo_cons_ok env mem st t s p₀ sz₀ rest st' tr' b sk hbp] at h
      rcases ho : backupLoopGo env mem st' (t + b) (s + sk) rest with ⟨st'', tr'', r''⟩
      simp only [ho] at h
      cases h
      rcases List.mem_cons.mp hp with hhead | htail
      · have hp1 : p = p₀ := congrArg Prod.fst hhead
        have hp2 : sz = sz₀ := congrArg Prod.snd hhead
        subst hp1
        subst hp2
        obtain ⟨lb₁, lb₂, eb₁, eb₂, _, _, _⟩ := loopGo_evolve env mem rest _ _ _ _ _ _ ho
        constructor
        · intro hsz
          subst hsz
          refine coveredBy_mono st' _ p lb₁ lb₂ eb₁ eb₂ ?_
          have htr := backup_page_regular_trace env mem st p st' tr' _ hbp
          exact backup_page_covers env mem st p _ st' tr' _ hbp p (htr ▸ List.mem_singleton_self p)
        · intro hsz
          subst hsz
          intro q hq
          refine coveredBy_mono st' _ q lb₁ lb₂ eb₁ eb₂ ?_
          have htr := backup_page_huge_trace env mem st p st' tr' _ hbp
          exact backup_page_covers env mem st p _ st' tr' _ hbp q (htr ▸ hq)
      · exact ih _ _ _ _ _ _ ho p sz htail
    | err e =>
      rw [loopGo_cons_err env mem st t s p₀ sz₀ rest st' tr' e hbp] at h
      cases h
    | panicked =>
      unfold backupLoopGo at h
      rw [hbp] at h
      cases h

theorem cfb_created (env : Env) (mem : Nat → Nat) (entries : List (Nat × PageSize)) (st : Store)
    (h : st.created = true) : create_full_backup env mem entries st = (st, [], Res.ok ()) := by
  unfold create_full_backup
  rw [if_pos h]

theorem cfb_loop_ok (env : Env) (mem : Nat → Nat) (entries : List (Nat × PageSize)) (st : Store)
    (st₁ : Store) (tr : List Nat) (v : Nat × Nat) (hc : st.created = false)
    (h : backupLoopGo env mem st 0 0 entries = (st₁, tr, Res.ok v)) :
    create_full_backup env mem entries st = ({ st₁ with created := true }, tr, Res.ok ()) := by
  unfold create_full_backup
  rw [if_neg (show ¬st.created = true by simp [hc]), h]

theorem cfb_loop_err (env : Env) (mem : Nat → Nat) (entries : List (Nat × PageSize)) (st : Store)
    (st₁ : Store) (tr : List Nat) (e : SvsmError) (hc : st.created = false)
    (h : backupLoopGo env mem st 0 0 entries = (st₁, tr, Res.err e)) :
    create_full_backup env mem entries st = (st₁, tr, Res.err (SvsmReqError.fatal e)) := by
  unfold create_full_backup
  rw [if_neg (show ¬st.created = true by simp [hc]), h]

theorem cfb_ok_elim (env : Env) (mem : Nat → Nat) (entries : List (Nat × PageSize)) (st : Store)
    (st₁ : Store) (tr : List Nat)
    (h : create_full_backup env mem entries st = (st₁, tr, Res.ok ())) :
    (st.created = true ∧ st₁ = st ∧ tr = []) ∨
    (st.created = false ∧ ∃ st₀ v, backupLoopGo env mem st 0 0 entries = (st₀, tr, Res.ok v) ∧
      st₁ = { st₀ with created := true }) := by
  unfold create_full_backup at h
  by_cases hc : st.created = true
  · rw [if_pos hc] at h
    cases h
    exact Or.inl ⟨hc, rfl, rfl⟩
  · rw [if_neg hc] at h
    rcases hl : backupLoopGo env mem st 0 0 entries with ⟨st₀, tr₀, r₀⟩
    rw [hl] at h
    cases r₀ with
    | ok v =>
      cases h
      exact Or.inr ⟨by simpa using hc, st₀, v, rfl, rfl⟩
    | err e => cases h
    | panicked => cases h

theorem restore_page_cases (env : Env) (mem : Nat → Nat) (page : MemPage4K)
    (mem₁ : Nat → Nat) (tr : List Nat) (u : Unit)
    (h : restore_page env mem page = (mem₁, tr, Res.ok u)) :
    (env.writable_phys_addr page.phys_addr = false ∧ mem₁ = mem ∧ tr = []) ∨
    (env.writable_phys_addr page.phys_addr = true ∧
      mem₁ = writeFrame mem page.phys_addr page.data ∧ tr = [page.phys_addr]) := by
  simp only [restore_page] at h
  by_cases hw : env.writable_phys_addr page.phys_addr = false
  · rw [if_pos hw] at h
    cases h
    exact Or.inl ⟨hw, rfl, rfl⟩
  · rw [if_neg hw] at h
    rcases hg : PerCPUPageMappingGuard.create env page.phys_addr (page.phys_addr + PAGE_SIZE)
      VIRT_ALIGN_4K with v | e | _ <;> rw [hg] at h
    · obtain rfl := guard_create_ok_addr env _ _ _ _ hg
      cases h
      exact Or.inr ⟨by simpa using hw, rfl, rfl⟩
    · cases h
    · cases h

theorem zero_page_cases (env : Env) (mem : Nat → Nat) (paddr : Nat)
    (mem₁ : Nat → Nat) (tr : List Nat) (u : Unit)
    (h : zero_page env mem paddr = (mem₁, tr, Res.ok u)) :
    (env.writable_phys_addr paddr = false ∧ mem₁ = mem ∧ tr = []) ∨
    (env.writable_phys_addr paddr = true ∧
      mem₁ = zero_mem_region mem paddr (paddr + PAGE_SIZE) ∧ tr = [paddr]) := by
  simp only [zero_page] at h
  by_cases hw : env.writable_phys_addr paddr = false
  · rw [if_pos hw] at h
    cases h
    exact Or.inl ⟨hw, rfl, rfl⟩
  · rw [if_neg hw] at h
    rcases hg : PerCPUPageMappingGuard.create env paddr (paddr + PAGE_SIZE)
      VIRT_ALIGN_4K with v | e | _ <;> rw [hg] at h
    · obtain rfl := guard_create_ok_addr env _ _ _ _ hg
      cases h
      exact Or.inr ⟨by simpa using hw, rfl, rfl⟩
    · cases h
    · cases h

theorem restoreLoopGo_cons_elim (env : Env) (mem : Nat → Nat) (page : MemPage4K)
    (rest : List MemPage4K) (mem₂ : Nat → Nat) (tr : List Nat) (u : Unit)
    (h : restoreLoopGo env mem (page :: rest) = (mem₂, tr, Res.ok u)) :
    ∃ mem₁ tr₁ tr₂ u₁ u₂, restore_page env mem page = (mem₁, tr₁, Res.ok u₁) ∧
      restoreLoopGo env mem₁ rest = (mem₂, tr₂, Res.ok u₂) ∧ tr = tr₁ ++ tr₂ := by
  unfold restoreLoopGo at h
  rcases hs : restore_page env mem page with ⟨mem₁, tr₁, r₁⟩
  rw [hs] at h
  cases r₁ with
  | ok u₁ =>
    rcases ho : restoreLoopGo env mem₁ rest with ⟨mem₂', tr₂, r₂⟩
    simp only [ho] at h
    cases h
    exact ⟨mem₁, tr₁, tr₂, u₁, u, rfl, ho, rfl⟩
  | err e => cases h
  | panicked => cases h

theorem zeroLoopGo_cons_elim (env : Env) (mem : Nat → Nat) (paddr : Nat)
    (rest : List Nat) (mem₂ : Nat → Nat) (tr : List Nat) (u : Unit)
    (h : zeroLoopGo env mem (paddr :: rest) = (mem₂, tr, Res.ok u)) :
    ∃ mem₁ tr₁ tr₂ u₁ u₂, zero_page env mem paddr = (mem₁, tr₁, Res.ok u₁) ∧
      zeroLoopGo env mem₁ rest = (mem₂, tr₂, Res.ok u₂) ∧ tr = tr₁ ++ tr₂ := by
  unfold zeroLoopGo at h
  rcases hs : zero_page env mem paddr with ⟨mem₁, tr₁, r₁⟩
  rw [hs] at h
  cases r₁ with
  | ok u₁ =>
    rcases ho : zeroLoopGo env mem₁ rest with ⟨mem₂', tr₂, r₂⟩
    simp only [ho] at h
    cases h
    exact ⟨mem₁, tr₁, tr₂, u₁, u, rfl, ho, rfl⟩
  | err e => cases h
  | panicked => cases h

theorem restoreLoopGo_frame (env : Env) (recs : List MemPage4K) :
    ∀ (mem mem₁ : Nat → Nat) (tr : List Nat) (u : Unit),
      restoreLoopGo env mem recs = (mem₁, tr, Res.ok u) →
      ∀ a, (∀ r ∈ recs, env.writable_phys_addr r.phys_addr = true → ¬inPage r.phys_addr a) →
      mem₁ a = mem a := by
  induction recs with
  | nil =>
    intro mem mem₁ tr u h a _
    cases h
    rfl
  | cons page rest ih =>
    intro mem mem₁ tr u h a ha
    obtain ⟨memMid, tr₁, tr₂, u₁, u₂, hs, ho, rfl⟩ :=
      restoreLoopGo_cons_elim env mem page rest mem₁ _ u h
    have htail : memMid a = mem a := by
      rcases restore_page_cases env mem page memMid tr₁ u₁ hs with ⟨_, rfl, _⟩ | ⟨hw, rfl, _⟩
      · rfl
      · have hni := ha page (List.mem_cons_self _ _) hw
        simp [writeFrame, inPage] at hni ⊢
        intro hle hlt
        exact absurd (And.intro hle hlt) (by simpa [inPage] using hni)
    rw [ih memMid mem₁ tr₂ u₂ ho a (fun r hr => ha r (List.mem_cons_of_mem _ hr)), htail]

theorem zeroLoopGo_frame (env : Env) (ps : List Nat) :
    ∀ (mem mem₁ : Nat → Nat) (tr : List Nat) (u : Unit),
      zeroLoopGo env mem ps = (mem₁, tr, Res.ok u) →
      ∀ a, (∀ p ∈ ps, env.writable_phys_addr p = true → ¬inPage p a) →
      mem₁ a = mem a := by
  induction ps with
  | nil =>
    intro mem mem₁ tr u h a _
    cases h
    rfl
  | cons paddr rest ih =>
    intro mem mem₁ tr u h a ha
    obtain ⟨memMid, tr₁, tr₂, u₁, u₂, hs, ho, rfl⟩ :=
      zeroLoopGo_cons_elim env mem paddr rest mem₁ _ u h
    have htail : memMid a = mem a := by
      rcases zero_page_cases env mem paddr memMid tr₁ u₁ hs with ⟨_, rfl, _⟩ | ⟨hw, rfl, _⟩
      · rfl
      · have hni := ha paddr (List.mem_cons_self _ _) hw
        simp [zero_mem_region, inPage] at hni ⊢
        intro hle hlt
        exact absurd (And.intro hle hlt) (by simpa [inPage] using hni)
    rw [ih memMid mem₁ tr₂ u₂ ho a (fun p hp => ha p (List.mem_cons_of_mem _ hp)), htail]

theorem restoreLoopGo_agree (env : Env) (M : Nat → Nat) (recs : List MemPage4K) :
    ∀ (mem mem₁ : Nat → Nat) (tr : List Nat) (u : Unit),
      restoreLoopGo env mem recs = (mem₁, tr, Res.ok u) →
      (∀ r ∈ recs, recGood M r) →
      ∀ a, (∃ r ∈ recs, env.writable_phys_addr r.phys_addr = true ∧ inPage r.phys_addr a) →
      mem₁ a = M a := by
  induction recs with
  | nil =>
    intro mem mem₁ tr u h hg a hex
    rcases hex with ⟨r, hr, _⟩
    cases hr
  | cons page rest ih =>
    intro mem mem₁ tr u h hg a hex
    obtain ⟨memMid, tr₁, tr₂, u₁, u₂, hs, ho, rfl⟩ :=
      restoreLoopGo_cons_elim env mem page rest mem₁ _ u h
    by_cases hrest : ∃ r ∈ rest, env.writable_phys_addr r.phys_addr = true ∧ inPage r.phys_addr a
    · exact ih memMid mem₁ tr₂ u₂ ho (fun r hr => hg r (List.mem_cons_of_mem _ hr)) a hrest
    · rcases hex with ⟨r, hr, hwr, hinr⟩
      rcases List.mem_cons.mp hr with rfl | hmem
      · rcases restore_page_cases env mem r memMid tr₁ u₁ hs with ⟨hw, _, _⟩ | ⟨_, hmm, _⟩
        · rw [hwr] at hw
          cases hw
        · have hrest' := hrest
          push_neg at hrest'
          have hframe := restoreLoopGo_frame env rest memMid mem₁ tr₂ u₂ ho a hrest'
          have hlt : a - r.phys_addr < PAGE_SIZE := by
            rcases hinr with ⟨h1, h2⟩
            omega
          have heq : r.phys_addr + (a - r.phys_addr) = a := by
            rcases hinr with ⟨h1, h2⟩
            omega
          rw [hframe, hmm]
          simp only [writeFrame]
          rw [if_pos (show r.phys_addr ≤ a ∧ a < r.phys_addr + PAGE_SIZE from hinr)]
          rw [hg r (List.mem_cons_self _ _) (a - r.phys_addr) hlt, heq]
      · exact absurd ⟨r, hmem, hwr, hinr⟩ hrest

theorem zeroLoopGo_zeroes (env : Env) (ps : List Nat) :
    ∀ (mem mem₁ : Nat → Nat) (tr : List Nat) (u : Unit),
      zeroLoopGo env mem ps = (mem₁, tr, Res.ok u) →
      ∀ a, (∃ p ∈ ps, env.writable_phys_addr p = true ∧ inPage p a) →
      mem₁ a = 0 := by
  induction ps with
  | nil =>
    intro mem mem₁ tr u h a hex
    rcases hex with ⟨p, hp, _⟩
    cases hp
  | cons paddr rest ih =>
    intro mem mem₁ tr u h a hex
    obtain ⟨memMid, tr₁, tr₂, u₁, u₂, hs, ho, rfl⟩ :=
      zeroLoopGo_cons_elim env mem paddr rest mem₁ _ u h
    by_cases hrest : ∃ p ∈ rest, env.writable_phys_addr p = true ∧ inPage p a
    · exact ih memMid mem₁ tr₂ u₂ ho a hrest
    · rcases hex with ⟨p, hp, hwp, hinp⟩
      rcases List.mem_cons.mp hp with rfl | hmem
      · rcases zero_page_cases env mem p memMid tr₁ u₁ hs with ⟨hw, _, _⟩ | ⟨_, hmm, _⟩
        · rw [hwp] at hw
          cases hw
        · have hrest' := hrest
          push_neg at hrest'
          have hframe := zeroLoopGo_frame env rest memMid mem₁ tr₂ u₂ ho a hrest'
          rw [hframe, hmm]
          simp only [zero_mem_region]
          rw [if_pos (show p ≤ a ∧ a < p + PAGE_SIZE from hinp)]
      · exact absurd ⟨p, hmem, hwp, hinp⟩ hrest

theorem zero_page_run (env : Env) (mem : Nat → Nat) (p : Nat) (hal : p % PAGE_SIZE = 0)
    (hm : env.mapOk p = true) (hw : env.writable_phys_addr p = true) :
    zero_page env mem p = (zero_mem_region mem p (p + PAGE_SIZE), [p], Res.ok ()) := by
  simp only [zero_page]
  rw [if_neg (show ¬env.writable_phys_addr p = false by simp [hw])]
  rw [guard_create_4k env p hal, if_pos hm]

theorem zeroLoopGo_run (env : Env) (hm : ∀ q, env.mapOk q = true)
    (hw : ∀ q, env.writable_phys_addr q = true) (ps : List Nat) :
    ∀ mem : Nat → Nat, (∀ p ∈ ps, p % PAGE_SIZE = 0) →
      ∃ mem₁, zeroLoopGo env mem ps = (mem₁, ps, Res.ok ()) ∧
        ∀ a, (∀ p ∈ ps, ¬inPage p a) → mem₁ a = mem a := by
  induction ps with
  | nil =>
    intro mem _
    exact ⟨mem, rfl, fun a _ => rfl⟩
  | cons p rest ih =>
    intro mem hal
    obtain ⟨mem₁, hrun, hframe⟩ := ih (zero_mem_region mem p (p + PAGE_SIZE))
      (fun q hq => hal q (List.mem_cons_of_mem _ hq))
    refine ⟨mem₁, ?_, ?_⟩
    · simp only [zeroLoopGo]
      rw [zero_page_run env mem p (hal p (List.mem_cons_self _ _)) (hm p) (hw p)]
      simp [hrun]
    · intro a ha
      rw [hframe a (fun q hq => ha q (List.mem_cons_of_mem _ hq))]
      simp only [zero_mem_region]
      rw [if_neg (show ¬(p ≤ a ∧ a < p + PAGE_SIZE) from ha p (List.mem_cons_self _ _))]

theorem rpb_ok_elim (env : Env) (st : Store) (clears : List (Nat × PageSize))
    (mem mem₃ : Nat → Nat) (tr : List Nat) (u : Unit)
    (h : restore_pages_from_backup env st clears mem = (mem₃, tr, Res.ok u)) :
    ∃ mem₁ tr₁ tr₂ u₁ u₂, restoreLoopGo env mem st.backup_pages = (mem₁, tr₁, Res.ok u₁) ∧
      zeroLoopGo env mem₁ st.zero_pages = (mem₃, tr₂, Res.ok u₂) ∧ tr = tr₁ ++ tr₂ := by
  unfold restore_pages_from_backup at h
  rcases h₁ : restoreLoopGo env mem st.backup_pages with ⟨mem₁, tr₁, r₁⟩
  simp only [h₁] at h
  cases r₁ with
  | ok u₁ =>
    rcases h₂ : zeroLoopGo env mem₁ st.zero_pages with ⟨mem₂, tr₂, r₂⟩
    simp only [h₂] at h
    cases r₂ with
    | ok u₂ =>
      cases h
      exact ⟨mem₁, tr₁, tr₂, u₁, u₂, rfl, h₂, rfl⟩
    | err e => cases h
    | panicked => cases h
  | err e => cases h
  | panicked => cases h

theorem dropLast_cons_of_ne_nil {α : Type} (x : α) (l : List α) (h : l ≠ []) :
    (x :: l).dropLast = x :: l.dropLast := by
  cases l with
  | nil => exact absurd rfl h
  | cons y ys => rfl

theorem traceForm_eq (paddr : Nat) : ∀ (is : List Nat) (start : Nat), is ≠ [] →
    traceForm paddr start is =
      start :: is.dropLast.map (fun i => paddr + i * PAGE_SIZE) := by
  intro is
  induction is with
  | nil =>
    intro start h
    exact absurd rfl h
  | cons i rest ih =>
    intro start _
    cases rest with
    | nil => simp [traceForm]
    | cons j rest' =>
      rw [traceForm, ih (paddr + i * PAGE_SIZE) (by simp)]
      rw [dropLast_cons_of_ne_nil i (j :: rest') (by simp)]
      simp

theorem range_512_dropLast : (List.range 512).dropLast = List.range 511 := by
  rw [List.range_succ]
  exact List.dropLast_concat

theorem traceForm_range_mem (p k : Nat) (hk : k < 511) :
    p + k * PAGE_SIZE ∈ traceForm p p (List.range 512) := by
  rw [traceForm_eq p (List.range 512) p (by simp), range_512_dropLast]
  exact List.mem_cons_of_mem _ (List.mem_map_of_mem _ (List.mem_range.mpr hk))

theorem traceForm_ce_bound :
    ∀ q ∈ traceForm 0 0 (List.range 512), q % PAGE_SIZE = 0 ∧ q + PAGE_SIZE ≤ 2093056 := by
  rw [traceForm_eq 0 (List.range 512) 0 (by simp), range_512_dropLast]
  intro q hq
  rcases List.mem_cons.mp hq with rfl | hq
  · refine ⟨by simp [PAGE_SIZE], by simp [PAGE_SIZE]⟩
  · rcases List.mem_map.mp hq with ⟨k, hk, rfl⟩
    have hk1 := List.mem_range.mp hk
    constructor
    · simp [PAGE_SIZE, Nat.mul_mod_left]
    · simp only [PAGE_SIZE, Nat.zero_add]
      omega

theorem pairLt_irrefl (x : Nat × PageSize) : ¬pairLt x x := by
  simp [pairLt]

theorem pairLt_trans (x y z : Nat × PageSize) (h₁ : pairLt x y) (h₂ : pairLt y z) :
    pairLt x z := by
  rcases h₁ with h₁ | ⟨h₁, h₁'⟩ <;> rcases h₂ with h₂ | ⟨h₂, h₂'⟩
  · exact Or.inl (Nat.lt_trans h₁ h₂)
  · exact Or.inl (h₂ ▸ h₁)
  · exact Or.inl (h₁ ▸ h₂)
  · exact Or.inr ⟨h₁.trans h₂, Nat.lt_trans h₁' h₂'⟩

theorem pairLt_total (x y : Nat × PageSize) (hne : x ≠ y) : pairLt x y ∨ pairLt y x := by
  rcases x with ⟨a, s⟩
  rcases y with ⟨b, t⟩
  rcases Nat.lt_trichotomy a b with h | h | h
  · exact Or.inl (Or.inl h)
  · subst h
    cases s <;> cases t
    · exact absurd rfl hne
    · exact Or.inl (Or.inr ⟨rfl, by simp [psIdx]⟩)
    · exact Or.inr (Or.inr ⟨rfl, by simp [psIdx]⟩)
    · exact absurd rfl hne
  · exact Or.inr (Or.inl h)

theorem insertSorted_mem {x y : Nat × PageSize} :
    ∀ {l : List (Nat × PageSize)}, y ∈ insertSorted x l → y = x ∨ y ∈ l := by
  intro l
  induction l with
  | nil =>
    intro h
    rcases List.mem_singleton.mp h with rfl
    exact Or.inl rfl
  | cons z zs ih =>
    intro h
    unfold insertSorted at h
    split at h
    · rcases List.mem_cons.mp h with rfl | h
      · exact Or.inl rfl
      · exact Or.inr h
    · split at h
      · exact Or.inr h
      · rcases List.mem_cons.mp h with rfl | h
        · exact Or.inr (List.mem_cons_self _ _)
        · rcases ih h with rfl | h
          · exact Or.inl rfl
          · exact Or.inr (List.mem_cons_of_mem _ h)

theorem insertSorted_pairwise (x : Nat × PageSize) :
    ∀ (l : List (Nat × PageSize)), l.Pairwise pairLt →
      (insertSorted x l).Pairwise pairLt := by
  intro l
  induction l with
  | nil =>
    intro _
    simp [insertSorted]
  | cons z zs ih =>
    intro hp
    rcases List.pairwise_cons.mp hp with ⟨hz, hzs⟩
    unfold insertSorted
    split
    case isTrue hlt =>
      refine List.pairwise_cons.mpr ⟨?_, hp⟩
      intro b hb
      rcases List.mem_cons.mp hb with rfl | hb
      · exact hlt
      · exact pairLt_trans x z b hlt (hz b hb)
    case isFalse hlt =>
      split
      case isTrue heq => exact hp
      case isFalse hne =>
        refine List.pairwise_cons.mpr ⟨?_, ih hzs⟩
        intro b hb
        rcases insertSorted_mem hb with rfl | hb
        · rcases pairLt_total z b (fun h => hne h.symm) with h | h
          · exact h
          · exact absurd h hlt
        · exact hz b hb

theorem insert_addr_WF (s : Set) (v : Nat) (sz : PageSize) (h : Set.WF s) :
    Set.WF (Set.insert_addr s v sz) :=
  insertSorted_pairwise (v, sz) s.set h

theorem remove_addr_WF (s : Set) (v : Nat) (sz : PageSize) (h : Set.WF s) :
    Set.WF (Set.remove_addr s v sz).2 :=
  List.Pairwise.filter _ h

theorem new_WF : Set.WF Set.new :=
  List.Pairwise.nil

/-- C3: every 4 KiB frame whose capture by backup_4k_page succeeds appends
exactly one record to the snapshot store: a non-zero record (and the call
returns true) exactly when some of the 4096 bytes read was non-zero, and a
zero record (returning false) exactly when all bytes were zero; the other
sequence and the created flag are untouched, so never both. -/
theorem c3_classification (env : Env) (mem : Nat → Nat) (st st₁ : Store) (paddr : Nat) (b : Bool)
    (h : backup_4k_page env mem st paddr = (st₁, Res.ok b)) :
    (b = true ↔ ∃ i, i < PAGE_SIZE ∧ mem (paddr + i) ≠ 0) ∧
    (b = true → st₁ = { st with backup_pages :=
        st.backup_pages ++ [⟨paddr, fun i => mem (paddr + i)⟩] }) ∧
    (b = false → st₁ = { st with zero_pages := st.zero_pages ++ [paddr] }) := by
  unfold backup_4k_page at h
  split at h
  · cases h
  · cases h
  · split at h
    · cases h
    · split at h
      · cases h
      · split at h
        case isTrue hz =>
          cases h
          refine ⟨⟨fun hb => absurd hb (by simp), ?_⟩, fun hb => absurd hb (by simp),
            fun _ => rfl⟩
          rintro ⟨i, hi, hne⟩
          exact absurd ((pageIsZero_eq_true_iff mem paddr).mp hz i hi) hne
        case isFalse hz =>
          cases h
          have hz' : pageIsZero mem paddr = false := by
            rcases Bool.eq_false_or_eq_true (pageIsZero mem paddr) with h' | h'
            · exact absurd h' hz
            · exact h'
          exact ⟨⟨fun _ => (pageIsZero_eq_false_iff mem paddr).mp hz', fun _ => rfl⟩,
            fun _ => rfl, fun hb => absurd hb (by simp)⟩

/-- C3 witness: a frame that is all zero except its last byte is classified
as non-zero and appended to the backup_pages sequence. -/
theorem c3_classification_witness :
    backup_4k_page envAll memLastByte (Store.mk [] [] false) 0 =
      (Store.mk [MemPage4K.mk 0 (fun i => memLastByte (0 + i))] [] false, Res.ok true) ∧
    (true = true ↔ ∃ i, i < PAGE_SIZE ∧ memLastByte (0 + i) ≠ 0) := by
  have hz : pageIsZero memLastByte 0 = false := by
    rw [pageIsZero_eq_false_iff]
    exact ⟨4095, by norm_num [PAGE_SIZE], by norm_num [memLastByte]⟩
  have heq := b4k_run envAll memLastByte (Store.mk [] [] false) 0 rfl rfl rfl
    (readAllOk_of envAll 0 (fun _ => rfl))
  rw [hz] at heq
  simp only [Bool.false_eq_true, if_false] at heq
  refine ⟨by simpa using heq, ?_⟩
  exact (c3_classification envAll memLastByte (Store.mk [] [] false) _ 0 true heq).1

/-- C4: when the created flag is already true, create_full_backup returns
success with an empty frame-copy trace and the store unchanged; hence a
second full backup after a successful one is a no-op returning the same
store. -/
theorem c4_idempotent (env env₂ : Env) (mem mem₂ : Nat → Nat)
    (entries entries₂ : List (Nat × PageSize)) (st : Store) :
    (st.created = true → create_full_backup env mem entries st = (st, [], Res.ok ())) ∧
    (∀ st₁ tr, create_full_backup env mem entries st = (st₁, tr, Res.ok ()) →
      create_full_backup env₂ mem₂ entries₂ st₁ = (st₁, [], Res.ok ())) := by
  constructor
  · intro hc
    exact cfb_created env mem entries st hc
  · intro st₁ tr h
    rcases cfb_ok_elim env mem entries st st₁ tr h with ⟨hc, rfl, rfl⟩ | ⟨hc, st₀, v, hl, rfl⟩
    · exact cfb_created env₂ mem₂ entries₂ _ hc
    · exact cfb_created env₂ mem₂ entries₂ _ rfl

/-- C4 witness: with the flag already set, a full backup over an empty entry
list leaves the empty-but-created store untouched. -/
theorem c4_idempotent_witness :
    create_full_backup envAll (fun _ => 0) [] (Store.mk [] [] true) =
      (Store.mk [] [] true, [], Res.ok ()) :=
  (c4_idempotent envAll envAll (fun _ => 0) (fun _ => 0) [] [] (Store.mk [] [] true)).1 rfl

/-- C5: if, after a successful prefix of entries, the backup of the next
entry fails with error e, create_full_backup on the whole list returns that
error immediately (the remaining entries are not reflected in the result),
the records appended so far stay in the store, and the created flag remains
false. -/
theorem c5_error_abort (env : Env) (mem : Nat → Nat) (st st₁ st₂ : Store)
    (done rest : List (Nat × PageSize)) (p : Nat) (sz : PageSize) (tr₁ tr₂ : List Nat)
    (tot skip : Nat) (e : SvsmError)
    (hc : st.created = false)
    (h1 : backupLoopGo env mem st 0 0 done = (st₁, tr₁, Res.ok (tot, skip)))
    (h2 : backup_page env mem st₁ p sz = (st₂, tr₂, Res.err e)) :
    create_full_backup env mem (done ++ (p, sz) :: rest) st =
      (st₂, tr₁ ++ tr₂, Res.err (SvsmReqError.fatal e)) ∧
    st₂.created = false ∧
    (∃ l₁, st₂.backup_pages = st.backup_pages ++ l₁) ∧
    (∃ l₂, st₂.zero_pages = st.zero_pages ++ l₂) := by
  obtain ⟨la₁, la₂, ea₁, ea₂, ea₃, _, _⟩ := loopGo_evolve env mem done st 0 0 st₁ tr₁ _ h1
  obtain ⟨lb₁, lb₂, eb₁, eb₂, eb₃, _, _⟩ := backup_page_evolve env mem st₁ p sz st₂ tr₂ _ h2
  have hloop : backupLoopGo env mem st 0 0 (done ++ (p, sz) :: rest) =
      (st₂, tr₁ ++ tr₂, Res.err e) := by
    rw [loopGo_append env mem done st 0 0 st₁ tr₁ tot skip h1 ((p, sz) :: rest)]
    simp [loopGo_cons_err env mem st₁ tot skip p sz rest st₂ tr₂ e h2]
  refine ⟨cfb_loop_err env mem _ st st₂ (tr₁ ++ tr₂) e hc hloop, ?_, ?_, ?_⟩
  · rw [eb₃, ea₃, hc]
  · exact ⟨la₁ ++ lb₁, by rw [eb₁, ea₁, List.append_assoc]⟩
  · exact ⟨la₂ ++ lb₂, by rw [eb₂, ea₂, List.append_assoc]⟩

/-- C5 witness: with a mapping oracle that always fails, a backup of two
registered pages aborts on the first one with a fatal mapping error, the
second entry unprocessed and the store unchanged with created still false. -/
theorem c5_error_abort_witness :
    create_full_backup envNoMap (fun _ => 0)
        ([] ++ (8192, PageSize.Regular) :: [(12288, PageSize.Regular)]) (Store.mk [] [] false) =
      (Store.mk [] [] false, [] ++ [8192], Res.err (SvsmReqError.fatal SvsmError.Mapping)) :=
  (c5_error_abort envNoMap (fun _ => 0) (Store.mk [] [] false) (Store.mk [] [] false)
    (Store.mk [] [] false) [] [(12288, PageSize.Regular)] 8192 PageSize.Regular [] [8192]
    0 0 SvsmError.Mapping rfl rfl rfl).1

/-- C7: when the writable-physical-address oracle answers false for the
destination, restore_page and zero_page return success with memory untouched
and no mapping created; conversely any address whose byte changed was
processed with the oracle answering true. -/
theorem c7_skip_nonwritable (env : Env) (mem : Nat → Nat) (page_src : MemPage4K) (paddr : Nat) :
    (env.writable_phys_addr page_src.phys_addr = false →
      restore_page env mem page_src = (mem, [], Res.ok ())) ∧
    (env.writable_phys_addr paddr = false →
      zero_page env mem paddr = (mem, [], Res.ok ())) ∧
    (∀ mem₁ tr u, restore_page env mem page_src = (mem₁, tr, Res.ok u) →
      ∀ a, mem₁ a ≠ mem a → env.writable_phys_addr page_src.phys_addr = true) ∧
    (∀ mem₁ tr u, zero_page env mem paddr = (mem₁, tr, Res.ok u) →
      ∀ a, mem₁ a ≠ mem a → env.writable_phys_addr paddr = true) := by
  refine ⟨?_, ?_, ?_, ?_⟩
  · intro hw
    simp only [restore_page]
    rw [if_pos hw]
  · intro hw
    simp only [zero_page]
    rw [if_pos hw]
  · intro mem₁ tr u h a hne
    rcases restore_page_cases env mem page_src mem₁ tr u h with ⟨_, rfl, _⟩ | ⟨hw, _, _⟩
    · exact absurd rfl hne
    · exact hw
  · intro mem₁ tr u h a hne
    rcases zero_page_cases env mem paddr mem₁ tr u h with ⟨_, rfl, _⟩ | ⟨hw, _, _⟩
    · exact absurd rfl hne
    · exact hw

/-- C7 witness: under a never-writable oracle, restoring a concrete record
over concrete memory is a successful skip that maps and writes nothing. -/
theorem c7_skip_nonwritable_witness :
    restore_page envNoWrite (fun _ => 3) (MemPage4K.mk 0 (fun _ => 5)) =
      ((fun _ => 3), [], Res.ok ()) :=
  (c7_skip_nonwritable envNoWrite (fun _ => 3) (MemPage4K.mk 0 (fun _ => 5)) 0).1 rfl

/-- C9: the mapping-guard factory panics whenever start, size or end is not
aligned to PAGE_SIZE shifted by the requested alignment; in particular
set_read_only on a Huge entry whose base is not 2 MiB aligned panics rather
than creating a misaligned mapping. -/
theorem c9_alignment_panic (env : Env) (ps pe al p : Nat) :
    (¬((pe - ps) % (PAGE_SIZE <<< al) = 0 ∧ ps % (PAGE_SIZE <<< al) = 0 ∧
        pe % (PAGE_SIZE <<< al) = 0) →
      PerCPUPageMappingGuard.create env ps pe al = Res.panicked) ∧
    (p % PAGE_SIZE_2M ≠ 0 → set_read_only env p PageSize.Huge = Res.panicked) := by
  constructor
  · intro h
    exact guard_create_panicked env ps pe al h
  · intro hp
    have hpanic : PerCPUPageMappingGuard.create env p (p + PAGE_SIZE_2M) VIRT_ALIGN_2M =
        Res.panicked := by
      apply guard_create_panicked
      intro hcon
      apply hp
      have h2 := hcon.2.1
      rwa [show (PAGE_SIZE <<< VIRT_ALIGN_2M : Nat) = PAGE_SIZE_2M from rfl] at h2
    simp only [set_read_only]
    rw [hpanic]

/-- C9 witness: a Huge entry based at 4096 (4 KiB aligned but not 2 MiB
aligned) makes set_read_only panic. -/
theorem c9_alignment_panic_witness :
    set_read_only envAll 4096 PageSize.Huge = Res.panicked :=
  (c9_alignment_panic envAll 0 0 0 4096).2 (by decide)

/-- C10: on a well-formed set (strictly sorted, as the BTreeSet model
guarantees and as insertion, removal and the empty constructor preserve),
iter_addresses yields a strictly ascending, duplicate-free list whose
members are exactly the pairs the set contains at the time of the call. -/
theorem c10_iter_sorted (s : Set) (h : Set.WF s) :
    List.Pairwise pairLt (Set.iter_addresses s) ∧ (Set.iter_addresses s).Nodup ∧
    ∀ v sz, ((v, sz) ∈ Set.iter_addresses s ↔ Set.contains_addr s v sz = true) := by
  refine ⟨h, ?_, ?_⟩
  · refine List.Pairwise.imp ?_ h
    intro a b hab heq
    subst heq
    exact pairLt_irrefl a hab
  · intro v sz
    simp [Set.contains_addr, Set.iter_addresses]

/-- C10 witness: a concrete three-element well-formed set, as produced by
sorted insertion, iterates in strictly ascending pair order. -/
theorem c10_iter_sorted_witness :
    List.Pairwise pairLt
      (Set.iter_addresses (Set.mk [(0, PageSize.Regular), (0, PageSize.Huge),
        (4096, PageSize.Regular)])) :=
  (c10_iter_sorted (Set.mk [(0, PageSize.Regular), (0, PageSize.Huge),
    (4096, PageSize.Regular)]) (by
      show List.Pairwise pairLt [(0, PageSize.Regular), (0, PageSize.Huge),
        (4096, PageSize.Regular)]
      decide)).1

theorem backup_page_huge_ok (env : Env) (mem : Nat → Nat) (st : Store) (p : Nat)
    (st₁ : Store) (tr : List Nat) (bs : Nat)
    (h : backupHugeGo env mem p st p 0 (List.range (PAGE_SIZE_2M / PAGE_SIZE)) =
      (st₁, tr, Res.ok bs)) :
    backup_page env mem st p PageSize.Huge = (st₁, tr, Res.ok (bs, PAGE_SIZE_2M - bs)) := by
  unfold backup_page
  rw [h]

/-- C1: evaluation of the huge-page arm of backup_page at the concrete entry
(0, Huge) over all-zero memory. Because the source assigns start_addr after
the call, the 512 invocations of backup_4k_page hit address 0 twice and
never hit sub-frame 511 at 511 * PAGE_SIZE, contradicting the claim that
each address 0 + i * PAGE_SIZE for i < 512 is captured exactly once. -/
theorem c1_huge_loop_trace :
    (backup_page envAll (fun _ => 0) (Store.mk [] [] false) 0 PageSize.Huge).2.1 =
      0 :: (List.range 511).map (fun i => 0 + i * PAGE_SIZE) ∧
    (0 :: (List.range 511).map (fun i => 0 + i * PAGE_SIZE)).length = 512 ∧
    (0 :: (List.range 511).map (fun i => 0 + i * PAGE_SIZE)).count 0 = 2 ∧
    511 * PAGE_SIZE ∉ 0 :: (List.range 511).map (fun i => 0 + i * PAGE_SIZE) := by
  have h512 : PAGE_SIZE_2M / PAGE_SIZE = 512 := by norm_num [PAGE_SIZE, PAGE_SIZE_2M]
  have hz : ∀ q ∈ traceForm 0 0 (List.range 512),
      q % PAGE_SIZE = 0 ∧ pageIsZero (fun _ => 0) q = true :=
    fun q hq => ⟨(traceForm_ce_bound q hq).1, pageIsZero_const_zero q⟩
  have hrun := hugeGo_zero_run envAll (fun _ => 0) 0 (fun _ => rfl) (fun _ => rfl)
    (fun _ => rfl) (List.range 512) (Store.mk [] [] false) 0 0 hz
  have htr : traceForm 0 0 (List.range 512) =
      0 :: (List.range 511).map (fun i => 0 + i * PAGE_SIZE) := by
    rw [traceForm_eq 0 (List.range 512) 0 (by simp), range_512_dropLast]
  have hbp := backup_page_huge_ok envAll (fun _ => 0) (Store.mk [] [] false) 0 _ _ 0
    (by rw [h512]; exact hrun)
  refine ⟨?_, by decide, by decide, by decide⟩
  rw [hbp]
  exact htr

/-- C8 counterexample: a restore over an empty snapshot with the concrete
entry (0, Regular) registered in PAGES_TO_CLEAR returns success yet leaves
byte 0 of that range at 1, i.e. the declared range is not zero-filled. -/
theorem c8_counterexample :
    restore_pages_from_backup envAll (Store.mk [] [] true) [(0, PageSize.Regular)]
        (fun _ => 1) = ((fun _ => 1), [], Res.ok ()) ∧
    ((fun _ => 1) : Nat → Nat) 0 ≠ 0 :=
  ⟨rfl, by decide⟩

/-- C8 amended: the PAGES_TO_CLEAR loop of restore_pages_from_backup has an
empty TODO body, so restore is independent of the PAGES_TO_CLEAR contents
and performs no zero-fill for them. -/
theorem c8_clear_noop (env : Env) (st : Store) (clears : List (Nat × PageSize))
    (mem : Nat → Nat) :
    restore_pages_from_backup env st clears mem = restore_pages_from_backup env st [] mem :=
  rfl

/-- C6: the dispatcher maps code 0 to full backup, 1 to restore and 2 to
enable-copy-on-write; every other code returns unsupported_call with the
world (snapshot store and memory) unchanged; and for every code the world
and result are independent of params, which is returned unchanged. -/
theorem c6_dispatch (env : Env) (be ce : List (Nat × PageSize)) (request : Nat) (w : World)
    (params params' : RequestParams) :
    (backup_protocol_request env be ce 0 params w =
      ({ w with store := (create_full_backup env w.mem be w.store).1 }, params,
        (create_full_backup env w.mem be w.store).2.2)) ∧
    (backup_protocol_request env be ce 1 params w =
      ({ w with mem := (restore_pages_from_backup env w.store ce w.mem).1 }, params,
        (restore_pages_from_backup env w.store ce w.mem).2.2)) ∧
    (backup_protocol_request env be ce 2 params w = (w, params, enable_copy_on_write env be)) ∧
    (request ≠ 0 → request ≠ 1 → request ≠ 2 →
      backup_protocol_request env be ce request params w =
        (w, params, Res.err SvsmReqError.unsupported_call)) ∧
    ((backup_protocol_request env be ce request params w).1 =
      (backup_protocol_request env be ce request params' w).1 ∧
     (backup_protocol_request env be ce request params w).2.2 =
      (backup_protocol_request env be ce request params' w).2.2 ∧
     (backup_protocol_request env be ce request params w).2.1 = params) := by
  refine ⟨rfl, rfl, rfl, ?_, ?_⟩
  · intro h0 h1 h2
    match request, h0, h1, h2 with
    | 0, h0, _, _ => exact absurd rfl h0
    | 1, _, h1, _ => exact absurd rfl h1
    | 2, _, _, h2 => exact absurd rfl h2
    | n + 3, _, _, _ => rfl
  · match request with
    | 0 => exact ⟨rfl, rfl, rfl⟩
    | 1 => exact ⟨rfl, rfl, rfl⟩
    | 2 => exact ⟨rfl, rfl, rfl⟩
    | n + 3 => exact ⟨rfl, rfl, rfl⟩

/-- C6 witness: the reserved code 3 returns unsupported_call and leaves a
concrete world and params untouched. -/
theorem c6_dispatch_witness :
    backup_protocol_request envAll [] [] 3 (RequestParams.mk 0)
        (World.mk (Store.mk [] [] false) (fun _ => 0)) =
      (World.mk (Store.mk [] [] false) (fun _ => 0), RequestParams.mk 0,
        Res.err SvsmReqError.unsupported_call) :=
  (c6_dispatch envAll [] [] 3 (World.mk (Store.mk [] [] false) (fun _ => 0))
    (RequestParams.mk 0) (RequestParams.mk 0)).2.2.2.1 (by decide) (by decide) (by decide)

theorem b4k_run_zero (env : Env) (mem : Nat → Nat) (st : Store) (p : Nat)
    (hal : p % PAGE_SIZE = 0) (hm : env.mapOk p = true) (ha : env.allocOk p = true)
    (hre : readAllOk env p = true) (hz : pageIsZero mem p = true) :
    backup_4k_page env mem st p =
      ({ st with zero_pages := st.zero_pages ++ [p] }, Res.ok false) := by
  rw [b4k_run env mem st p hal hm ha hre, if_pos hz]

theorem backup_page_regular_ok_false (env : Env) (mem : Nat → Nat) (st : Store) (p : Nat)
    (st₁ : Store) (h : backup_4k_page env mem st p = (st₁, Res.ok false)) :
    backup_page env mem st p PageSize.Regular = (st₁, [p], Res.ok (0, (PAGE_SIZE : Nat))) := by
  unfold backup_page
  rw [h]

/-- C2 (amended): round-trip holds for the sub-frames the backup actually
captures: every byte inside a Regular entry's page, and every byte inside
sub-frames 0..510 of a Huge entry's range, is restored to its capture-time
value; sub-frame 511 of a Huge entry is excluded because the source's loop
never captures it. Hypotheses: a full backup from the pristine store
succeeded, the writable oracle answers true at restore time for every
recorded page, and the restore succeeded over arbitrarily mutated memory. -/
theorem c2_roundtrip (env₁ env₂ : Env) (mem₁ mem₂ mem₃ : Nat → Nat)
    (entries clears : List (Nat × PageSize)) (st₁ : Store) (tr₁ tr₂ : List Nat)
    (hb : create_full_backup env₁ mem₁ entries (Store.mk [] [] false) = (st₁, tr₁, Res.ok ()))
    (hw₁ : ∀ r ∈ st₁.backup_pages, env₂.writable_phys_addr r.phys_addr = true)
    (hw₂ : ∀ q ∈ st₁.zero_pages, env₂.writable_phys_addr q = true)
    (hr : restore_pages_from_backup env₂ st₁ clears mem₂ = (mem₃, tr₂, Res.ok ()))
    (a p : Nat)
    (hcov : ((p, PageSize.Regular) ∈ entries ∧ inPage p a) ∨
      (∃ k, (p, PageSize.Huge) ∈ entries ∧ k < 511 ∧ inPage (p + k * PAGE_SIZE) a)) :
    mem₃ a = mem₁ a := by
  have h512 : PAGE_SIZE_2M / PAGE_SIZE = 512 := by norm_num [PAGE_SIZE, PAGE_SIZE_2M]
  rcases cfb_ok_elim env₁ mem₁ entries _ st₁ tr₁ hb with ⟨hcr, _, _⟩ | ⟨_, st₀, v, hl, rfl⟩
  · simp at hcr
  · obtain ⟨l₁, l₂, e₁, e₂, _, g₁, g₂⟩ := loopGo_evolve env₁ mem₁ entries _ _ _ _ _ _ hl
    simp at e₁ e₂
    have hgood₁ : ∀ r ∈ st₀.backup_pages, recGood mem₁ r := by
      intro r hrr
      exact g₁ r (by rwa [e₁] at hrr)
    have hgood₂ : ∀ q ∈ st₀.zero_pages, zeroGood mem₁ q := by
      intro q hq
      exact g₂ q (by rwa [e₂] at hq)
    have hqc : ∃ q, coveredBy st₀ q ∧ inPage q a := by
      rcases hcov with ⟨hmem, hin⟩ | ⟨k, hmem, hk, hin⟩
      · exact ⟨p, (loopGo_covered env₁ mem₁ entries _ _ _ _ _ _ hl p
          PageSize.Regular hmem).1 rfl, hin⟩
      · refine ⟨p + k * PAGE_SIZE, ?_, hin⟩
        refine (loopGo_covered env₁ mem₁ entries _ _ _ _ _ _ hl p PageSize.Huge hmem).2 rfl _ ?_
        rw [h512]
        exact traceForm_range_mem p k hk
    obtain ⟨memMid, tra, trb, u₁, u₂, hra, hrb, _⟩ :=
      rpb_ok_elim env₂ _ clears mem₂ mem₃ tr₂ () hr
    rcases hqc with ⟨q, hq, hin⟩
    by_cases hzcov : ∃ z ∈ st₀.zero_pages, env₂.writable_phys_addr z = true ∧ inPage z a
    · have h0 : mem₃ a = 0 := zeroLoopGo_zeroes env₂ _ memMid mem₃ trb u₂ hrb a hzcov
      rcases hzcov with ⟨z, hz, _, hzin⟩
      have hm0 : mem₁ a = 0 := by
        have hlt : a - z < PAGE_SIZE := by
          rcases hzin with ⟨hz1, hz2⟩
          omega
        have hval := hgood₂ z hz (a - z) hlt
        rwa [Nat.add_sub_cancel' hzin.1] at hval
      rw [h0, hm0]
    · have hframe : mem₃ a = memMid a := by
        apply zeroLoopGo_frame env₂ _ memMid mem₃ trb u₂ hrb a
        push_neg at hzcov
        exact hzcov
      rcases hq with ⟨r, hr', hrp⟩ | hqz
      · have hagree : memMid a = mem₁ a := by
          apply restoreLoopGo_agree env₂ mem₁ _ mem₂ memMid tra u₁ hra hgood₁ a
          exact ⟨r, hr', hw₁ r hr', hrp ▸ hin⟩
        rw [hframe, hagree]
      · exact absurd ⟨q, hqz, hw₂ q hqz, hin⟩ hzcov

/-- C2 counterexample: with the single entry (0, Huge), capture-time memory
holding 1 at 2093056 = 511 * 4096 (inside the huge page, in its last
sub-frame), every oracle succeeding and every page writable, full backup
succeeds, the restore after mutating that byte to 7 succeeds, yet the byte
stays 7 instead of returning to its capture-time value 1: the round-trip
law of the claim fails on Huge entries. -/
theorem c2_counterexample :
    create_full_backup envAll memA [(0, PageSize.Huge)] (Store.mk [] [] false) =
      (Store.mk [] (traceForm 0 0 (List.range 512)) true, traceForm 0 0 (List.range 512),
        Res.ok ()) ∧
    (restore_pages_from_backup envAll
        (Store.mk [] (traceForm 0 0 (List.range 512)) true) [] memB).2.2 = Res.ok () ∧
    (restore_pages_from_backup envAll
        (Store.mk [] (traceForm 0 0 (List.range 512)) true) [] memB).1 2093056 = 7 ∧
    memA 2093056 = 1 ∧ envAll.writable_phys_addr 2093056 = true := by
  have h512 : PAGE_SIZE_2M / PAGE_SIZE = 512 := by norm_num [PAGE_SIZE, PAGE_SIZE_2M]
  have hz : ∀ q ∈ traceForm 0 0 (List.range 512),
      q % PAGE_SIZE = 0 ∧ pageIsZero memA q = true := by
    intro q hq
    obtain ⟨hmod, hbound⟩ := traceForm_ce_bound q hq
    refine ⟨hmod, ?_⟩
    rw [pageIsZero_eq_true_iff]
    intro i hi
    have hne : q + i ≠ 2093056 := by omega
    simp [memA, hne]
  have hrun := hugeGo_zero_run envAll memA 0 (fun _ => rfl) (fun _ => rfl) (fun _ => rfl)
    (List.range 512) (Store.mk [] [] false) 0 0 hz
  have hbp := backup_page_huge_ok envAll memA (Store.mk [] [] false) 0 _ _ 0
    (by rw [h512]; exact hrun)
  have hloop : backupLoopGo envAll memA (Store.mk [] [] false) 0 0 [(0, PageSize.Huge)] =
      ({ Store.mk [] [] false with
          zero_pages := (Store.mk [] [] false).zero_pages ++ traceForm 0 0 (List.range 512) },
        traceForm 0 0 (List.range 512) ++ [], Res.ok (0 + 0, 0 + (PAGE_SIZE_2M - 0))) := by
    rw [loopGo_cons_ok envAll memA (Store.mk [] [] false) 0 0 0 PageSize.Huge [] _ _ 0
      (PAGE_SIZE_2M - 0) hbp]
    rfl
  have hcfb := cfb_loop_ok envAll memA [(0, PageSize.Huge)] (Store.mk [] [] false) _ _ _
    rfl hloop
  obtain ⟨mem₃, hzrun, hframe⟩ := zeroLoopGo_run envAll (fun _ => rfl) (fun _ => rfl)
    (traceForm 0 0 (List.range 512)) memB (fun q hq => (traceForm_ce_bound q hq).1)
  have hrpb : restore_pages_from_backup envAll
      (Store.mk [] (traceForm 0 0 (List.range 512)) true) [] memB =
      (mem₃, traceForm 0 0 (List.range 512), Res.ok ()) := by
    unfold restore_pages_from_backup
    simp [restoreLoopGo, hzrun]
  refine ⟨by simpa using hcfb, ?_, ?_, by simp [memA], rfl⟩
  · rw [hrpb]
  · rw [hrpb]
    show mem₃ 2093056 = 7
    have hnotin : ∀ pp ∈ traceForm 0 0 (List.range 512), ¬inPage pp 2093056 := by
      intro pp hpp
      obtain ⟨_, hb⟩ := traceForm_ce_bound pp hpp
      intro hip
      rcases hip with ⟨h1, h2⟩
      omega
    rw [hframe 2093056 hnotin]
    simp [memB]

/-- C2 witness: a single Regular all-zero page at 0 is backed up as a zero
record, memory is mutated to all ones, the restore succeeds, and byte 5 of
the page is back to its capture-time value 0. -/
theorem c2_roundtrip_witness :
    zero_mem_region (fun _ => 1) 0 (0 + PAGE_SIZE) 5 = (fun _ => (0 : Nat)) 5 := by
  have hb4k := b4k_run_zero envAll (fun _ => 0) (Store.mk [] [] false) 0 rfl rfl rfl
    (readAllOk_of envAll 0 (fun _ => rfl)) (pageIsZero_const_zero 0)
  have hbpg := backup_page_regular_ok_false envAll (fun _ => 0) (Store.mk [] [] false) 0 _ hb4k
  have hloop : backupLoopGo envAll (fun _ => 0) (Store.mk [] [] false) 0 0
      [(0, PageSize.Regular)] =
      ({ Store.mk [] [] false with
          zero_pages := (Store.mk [] [] false).zero_pages ++ [0] },
        [0] ++ [], Res.ok (0 + 0, 0 + PAGE_SIZE)) := by
    rw [loopGo_cons_ok envAll (fun _ => 0) (Store.mk [] [] false) 0 0 0 PageSize.Regular []
      _ _ 0 PAGE_SIZE hbpg]
    rfl
  have hcfb := cfb_loop_ok envAll (fun _ => 0) [(0, PageSize.Regular)] (Store.mk [] [] false)
    _ _ _ rfl hloop
  have hb : create_full_backup envAll (fun _ => 0) [(0, PageSize.Regular)]
      (Store.mk [] [] false) = (Store.mk [] [0] true, [0], Res.ok ()) := by
    simpa using hcfb
  have hzp := zero_page_run envAll (fun _ => 1) 0 rfl rfl rfl
  have hr : restore_pages_from_backup envAll (Store.mk [] [0] true) [] (fun _ => 1) =
      (zero_mem_region (fun _ => 1) 0 (0 + PAGE_SIZE), [0], Res.ok ()) := by
    unfold restore_pages_from_backup
    simp [restoreLoopGo, zeroLoopGo, hzp]
  exact c2_roundtrip envAll envAll (fun _ => 0) (fun _ => 1)
    (zero_mem_region (fun _ => 1) 0 (0 + PAGE_SIZE)) [(0, PageSize.Regular)] []
    (Store.mk [] [0] true) [0] [0] hb (by simp) (fun q _ => rfl) hr 5 0
    (Or.inl ⟨List.mem_singleton_self _, ⟨by omega, by norm_num [PAGE_SIZE]⟩⟩)

end SVSM
